import Mathlib

/-
  Verification development for the force-directed layout engine of the
  neo4j-browser graph visualization (ForceSimulation.ts).

  The definitions below are a shallow embedding of the layout controller and
  of the collaborator contracts it relies on.  Machine floating-point
  geometry is modelled over ℝ, the simulation's scalar run state (alpha,
  decay factors) over ℚ.  Callbacks are modelled by invocation counters.
-/

set_option maxHeartbeats 1000000

/-- A layout node as seen by the engine: a stable string id, a 2D position
and a 2D velocity mutated in place by the simulation.  The arbitrary payload
carried by real nodes is opaque to layout and therefore omitted. -/
structure NodeModel where
  id : String
  x : ℝ
  y : ℝ
  vx : ℝ
  vy : ℝ

/-- A relationship as seen by the layout engine: its own id plus the ids of
its source and target nodes.  Payload (type, properties) is opaque to layout
and omitted. -/
structure RelationshipModel where
  id : String
  source : String
  target : String
deriving DecidableEq, Inhabited

/-- Modelled from the spec: the graph-state collaborator (`GraphModel`, not
part of the layout sources).  It exposes the current ordered node list and
the relationship list from which the pair-grouping accessor is computed. -/
structure GraphModel where
  nodes : List NodeModel
  relationships : List RelationshipModel

/-- Modelled from the spec: a group of parallel relationships keyed by the
unordered pair of endpoint node ids (the collaborator's `NodePair`).  The
key records the endpoint ids of the first relationship of the group. -/
structure NodePair where
  key : String × String
  relationships : List RelationshipModel

/-- Whether two endpoint-id pairs denote the same unordered pair of nodes
(equal as given, or equal with the two components swapped). -/
def samePair (k₁ k₂ : String × String) : Bool :=
  (k₁.1 == k₂.1 && k₁.2 == k₂.2) || (k₁.1 == k₂.2 && k₁.2 == k₂.1)

/-- The endpoint-id pair of a relationship, in source–target order. -/
def nodePairKey (r : RelationshipModel) : String × String :=
  (r.source, r.target)

/-- Whether both endpoint ids of a relationship are present in the graph's
current node set. -/
def hasEndpoints (g : GraphModel) (r : RelationshipModel) : Bool :=
  (g.nodes.any fun n => n.id == r.source) && (g.nodes.any fun n => n.id == r.target)

/-- Modelled from the spec: the relationships the layout may use — a
relationship whose source or target id is not present in the current node
set is excluded rather than crashing the layout (spec §4.2 edge-case
policy). -/
def GraphModel.validRelationships (g : GraphModel) : List RelationshipModel :=
  g.relationships.filter (hasEndpoints g)

/-- Insert one relationship into the running list of endpoint-pair groups:
append it to the group carrying its unordered-pair key if one exists,
otherwise open a fresh group for that key at the end. -/
def insertRel : List NodePair → RelationshipModel → List NodePair
  | [], r => [⟨nodePairKey r, [r]⟩]
  | p :: ps, r =>
    if samePair p.key (nodePairKey r) then ⟨p.key, p.relationships ++ [r]⟩ :: ps
    else p :: insertRel ps r

/-- Modelled from the spec: `GraphModel.groupedRelationships` (not part of
the layout sources) — the relationship-pair-grouping accessor returning
groups of parallel relationships keyed by unordered endpoint pair, in first
occurrence order. -/
def GraphModel.groupedRelationships (g : GraphModel) : List NodePair :=
  g.validRelationships.foldl insertRel []

/-- The deduplicated relationship list handed to the link force
(ForceSimulation.ts line 48): the first relationship of every endpoint-pair
group reported by the graph's pair-grouping accessor. -/
def oneRelationshipPerPairOfNodes (g : GraphModel) : List RelationshipModel :=
  g.groupedRelationships.map fun pair => pair.relationships.headI

example : (oneRelationshipPerPairOfNodes ⟨[], []⟩).length = 0 := by decide

example :
    oneRelationshipPerPairOfNodes
      ⟨[⟨"a", 0, 0, 0, 0⟩, ⟨"b", 0, 0, 0, 0⟩],
        [⟨"r1", "a", "b"⟩, ⟨"r2", "b", "a"⟩, ⟨"r3", "a", "c"⟩]⟩ =
    [⟨"r1", "a", "b"⟩] := by decide

/-
  Configuration constants (graph-visualization constants module, not part of
  the sources at hand).  Modelled from the spec: fixed named parameters; the
  spec fixes their existence and role but not their numeric values, so the
  values below are representative.  No theorem below depends on the values
  except where the spec itself states one (none do).
-/

/-- Modelled from the spec: starting alpha used by `restart()`. -/
def DEFAULT_ALPHA : ℚ := 1

/-- Modelled from the spec: convergence floor used by `restart()`. -/
def DEFAULT_ALPHA_MIN : ℚ := 1 / 20

/-- Modelled from the spec: velocity damping factor in (0,1). -/
def VELOCITY_DECAY : ℚ := 2 / 5

/-- Modelled from the spec: many-body repulsion strength (negative). -/
def FORCE_CHARGE : ℚ := -600

/-- Modelled from the spec: center-pull strength on the X axis. -/
def FORCE_CENTER_X : ℚ := 3 / 100

/-- Modelled from the spec: center-pull strength on the Y axis. -/
def FORCE_CENTER_Y : ℚ := 3 / 100

/-- Modelled from the spec: collision disc radius. -/
def FORCE_COLLIDE_RADIUS : ℚ := 50

/-- Modelled from the spec: link force target distance. -/
def FORCE_LINK_DISTANCE : ℚ := 60

/-- Modelled from the spec: typical edge length used to seed the circle. -/
def LINK_DISTANCE : ℝ := 45

/-- Modelled from the spec: number of synchronous steps run by
`precompute()`. -/
def PRECOMPUTED_TICKS : ℕ := 300

/-- Modelled from the spec: number of extra integration sub-steps the tick
handler runs before each render. -/
def TICKS_PER_RENDER : ℕ := 10

/-- Modelled from the spec: the engine's fixed alpha decay ratio (the
d3-force default is 1 − 0.001^(1/300) ≈ 0.0228, modelled by a nearby
rational). -/
def ALPHA_DECAY_DEFAULT : ℚ := 1 / 44

/-- A force descriptor held by the engine's force registry, mirroring the
d3-force factories the controller configures: `forceManyBody`, `forceX`,
`forceY`, `forceCollide` and `forceLink` (the link force also records its
input relationship list; its id accessor, which matches endpoints by node
id, is part of the descriptor's meaning). -/
inductive Force where
  | manyBody (strength : ℚ)
  | x (target strength : ℚ)
  | y (target strength : ℚ)
  | collide (radius : ℚ)
  | link (links : List RelationshipModel) (distance : ℚ)
deriving DecidableEq

/-- Modelled from the spec: the engine's state (§4.1 contract of the vetted
force-layout library).  `running` is the automatic per-frame driver's flag,
`tickCount` counts discrete integration steps taken so far; the per-node
numeric work of one step is carried out inside the engine and does not
affect any field observed here other than `alpha` and `tickCount`. -/
structure SimState where
  nodes : List NodeModel
  forces : List (String × Force)
  alpha : ℚ
  alphaMin : ℚ
  alphaTarget : ℚ
  alphaDecay : ℚ
  velocityDecay : ℚ
  running : Bool
  tickCount : ℕ

/-- Install or replace a named force: the registry is keyed by name, an
existing entry is replaced in place, a new name is appended (the engine's
name-keyed map semantics). -/
def setForceList : List (String × Force) → String → Force → List (String × Force)
  | [], name, f => [(name, f)]
  | (k, v) :: rest, name, f =>
    if k = name then (k, f) :: rest else (k, v) :: setForceList rest name f

/-- The engine's `force(name, forceFn)` setter. -/
def SimState.setForce (s : SimState) (name : String) (f : Force) : SimState :=
  { s with forces := setForceList s.forces name f }

/-- Look a force up by name in the registry. -/
def findForce (name : String) : List (String × Force) → Option Force
  | [] => none
  | (k, v) :: rest => if k = name then some v else findForce name rest

/-- Modelled from the spec: one discrete integration step of the engine —
alpha moves toward its target by the fixed decay ratio (with target 0 this
is the energy loss that drives convergence) and the step counter advances;
forces are applied to node velocities and positions inside the engine. -/
def stepTick (s : SimState) : SimState :=
  { s with alpha := s.alpha + (s.alphaTarget - s.alpha) * s.alphaDecay,
           tickCount := s.tickCount + 1 }

/-- The engine's `tick(iterations)`: `n` synchronous integration steps run
back to back; no events are dispatched and the driver flag is untouched. -/
def tickN : ℕ → SimState → SimState
  | 0, s => s
  | n + 1, s => tickN n (stepTick s)

/-- The whole controller state: the owned engine state plus the modelled
observable effects of the two callbacks — the render callback is an
invocation counter, the optional one-shot end-simulation callback is a
registered flag plus an invocation counter. -/
structure ForceSimState where
  sim : SimState
  endCbRegistered : Bool
  endCbFired : ℕ
  renderCount : ℕ

/-- The ForceSimulation constructor: a fresh engine (d3 defaults: alpha 1,
floor 1/1000, target 0, default decay) configured with the velocity decay
and the charge, centerX and centerY forces, its tick and end handlers bound,
and then stopped. -/
def ForceSimulation.new : ForceSimState :=
  { sim :=
      { nodes := []
        forces :=
          [("charge", Force.manyBody FORCE_CHARGE),
           ("centerX", Force.x 0 FORCE_CENTER_X),
           ("centerY", Force.y 0 FORCE_CENTER_Y)]
        alpha := 1
        alphaMin := 1 / 1000
        alphaTarget := 0
        alphaDecay := ALPHA_DECAY_DEFAULT
        velocityDecay := VELOCITY_DECAY
        running := false
        tickCount := 0 }
    endCbRegistered := false
    endCbFired := 0
    renderCount := 0 }

/-- The controller's registered tick handler (constructor, lines 62–65):
advance the engine by `TICKS_PER_RENDER` extra sub-steps, then invoke the
render callback once. -/
def ForceSimulation.onTick (fs : ForceSimState) : ForceSimState :=
  { fs with sim := tickN TICKS_PER_RENDER fs.sim,
            renderCount := fs.renderCount + 1 }

/-- The controller's registered end handler (constructor, lines 66–69): call
the end-simulation callback if one is registered, then clear it. -/
def dispatchEnd (fs : ForceSimState) : ForceSimState :=
  if fs.endCbRegistered then
    { fs with endCbFired := fs.endCbFired + 1, endCbRegistered := false }
  else fs

/-- Modelled from the spec: the tail of the engine's per-frame step — when
alpha has dropped below the floor, the automatic driver is stopped and the
end event is dispatched to the controller's end handler. -/
def dispatchMaybeEnd (fs : ForceSimState) : ForceSimState :=
  if fs.sim.alpha < fs.sim.alphaMin then
    dispatchEnd { fs with sim := { fs.sim with running := false } }
  else fs

/-- Modelled from the spec: one frame of the engine's automatic driver — one
internal integration step, then the tick event (handled by the controller's
tick handler), then the convergence check. -/
def frameStep (fs : ForceSimState) : ForceSimState :=
  dispatchMaybeEnd (ForceSimulation.onTick { fs with sim := stepTick fs.sim })

/-- Modelled from the spec: the cooperative per-frame driver — while the
driver flag is up, frames fire one after the other; a cleared flag means no
further frame is scheduled.  Fuel-indexed: `runFrames n` observes the first
`n` scheduled frames. -/
def runFrames : ℕ → ForceSimState → ForceSimState
  | 0, fs => fs
  | n + 1, fs => if fs.sim.running = true then runFrames n (frameStep fs) else fs

/-- `ForceSimulation.restart` (lines 104–106): reset the floor to
`DEFAULT_ALPHA_MIN` and alpha to `DEFAULT_ALPHA`, then restart the automatic
driver. -/
def ForceSimulation.restart (fs : ForceSimState) : ForceSimState :=
  { fs with sim :=
      { fs.sim with alphaMin := DEFAULT_ALPHA_MIN, alpha := DEFAULT_ALPHA,
                    running := true } }

/-- `ForceSimulation.precompute` (lines 99–102): stop the automatic driver,
run `PRECOMPUTED_TICKS` synchronous steps, then invoke the render callback
once. -/
def ForceSimulation.precompute (fs : ForceSimState) : ForceSimState :=
  { fs with sim := tickN PRECOMPUTED_TICKS { fs.sim with running := false },
            renderCount := fs.renderCount + 1 }

/-- The circle radius computed by `updateNodes` (line 76):
`nodes.length * LINK_DISTANCE / (π * 2)`. -/
noncomputable def seedRadius (k : ℕ) : ℝ :=
  (k * LINK_DISTANCE) / (Real.pi * 2)

/-- Modelled from the spec: the seeder's per-node placement — node `i` of
`total` goes to the point of the circle of the given radius around the
center at angle `2πi/total`. -/
noncomputable def placeAt (total : ℕ) (center : ℝ × ℝ) (radius : ℝ) :
    ℕ → List NodeModel → List NodeModel
  | _, [] => []
  | i, n :: rest =>
    { n with x := center.1 + radius * Real.sin (2 * Real.pi * i / total),
             y := center.2 + radius * Real.cos (2 * Real.pi * i / total) } ::
      placeAt total center radius (i + 1) rest

/-- Modelled from the spec: `circularLayout` (utils, not part of the sources
at hand) — assign each node an initial position evenly spaced around the
circle of the given radius centered at the given point. -/
noncomputable def circularLayout (nodes : List NodeModel) (center : ℝ × ℝ)
    (radius : ℝ) : List NodeModel :=
  placeAt nodes.length center radius 0 nodes

/-- `ForceSimulation.updateNodes` (lines 73–86): read the node list, seed it
on the circle of radius `seedRadius` around the origin, hand it to the
engine and install the collision force. -/
noncomputable def ForceSimulation.updateNodes (g : GraphModel)
    (fs : ForceSimState) : ForceSimState :=
  { fs with sim :=
      (SimState.setForce
        ({ fs.sim with
            nodes := circularLayout g.nodes ⟨0, 0⟩ (seedRadius g.nodes.length) })
        "collide" (Force.collide FORCE_COLLIDE_RADIUS)) }

/-- `ForceSimulation.updateRelationships` (lines 88–97): compute the
deduplicated relationship list and install/replace the link force. -/
def ForceSimulation.updateRelationships (g : GraphModel)
    (fs : ForceSimState) : ForceSimState :=
  { fs with sim :=
      (SimState.setForce fs.sim "link"
        (Force.link (oneRelationshipPerPairOfNodes g) FORCE_LINK_DISTANCE)) }

/-- A data-changing call on the controller, for stating what a freshly
constructed controller does before `restart()` or `precompute()`. -/
inductive UpdateOp where
  | nodes (g : GraphModel)
  | relationships (g : GraphModel)

/-- Apply a sequence of data-changing calls to the controller. -/
noncomputable def applyOps : List UpdateOp → ForceSimState → ForceSimState
  | [], fs => fs
  | UpdateOp.nodes g :: rest, fs =>
    applyOps rest (ForceSimulation.updateNodes g fs)
  | UpdateOp.relationships g :: rest, fs =>
    applyOps rest (ForceSimulation.updateRelationships g fs)

/-- All listed nodes lie on the circle of radius `r` around the origin. -/
def onCircle (r : ℝ) : List NodeModel → Prop
  | [] => True
  | p :: rest => p.x ^ 2 + p.y ^ 2 = r ^ 2 ∧ onCircle r rest

/-
  Concrete instances used by the witness theorems.
-/

/-- A graph with no nodes and no relationships. -/
def gEmpty : GraphModel := ⟨[], []⟩

/-- A two-node graph with a single relationship between the nodes. -/
def gPair : GraphModel :=
  ⟨[⟨"a", 0, 0, 0, 0⟩, ⟨"b", 0, 0, 0, 0⟩], [⟨"r1", "a", "b"⟩]⟩

/-- The single relationship of `gPair`. -/
def rPair : RelationshipModel := ⟨"r1", "a", "b"⟩

/-- A freshly constructed controller with an end-simulation callback
registered, as a caller does before `restart()`. -/
def fsReg : ForceSimState :=
  { ForceSimulation.new with endCbRegistered := true }

/-
  Helper lemmas about the pair grouping.
-/

/-- The head of a nonempty list is a member of it. -/
lemma headI_mem_of_ne_nil {α : Type} [Inhabited α] :
    ∀ {l : List α}, l ≠ [] → l.headI ∈ l
  | [], h => absurd rfl h
  | a :: l, _ => List.mem_cons_self a l

/-- Unfolding `insertRel` when the first group matches. -/
lemma insertRel_cons_pos (p : NodePair) (ps : List NodePair)
    (r : RelationshipModel) (h : samePair p.key (nodePairKey r) = true) :
    insertRel (p :: ps) r = ⟨p.key, p.relationships ++ [r]⟩ :: ps := by
  simp [insertRel, h]

/-- Unfolding `insertRel` when the first group does not match. -/
lemma insertRel_cons_neg (p : NodePair) (ps : List NodePair)
    (r : RelationshipModel) (h : samePair p.key (nodePairKey r) = false) :
    insertRel (p :: ps) r = p :: insertRel ps r := by
  simp [insertRel, h]

/-- Inserting one relationship grows the group list by at most one group. -/
lemma insertRel_length_le (groups : List NodePair) (r : RelationshipModel) :
    (insertRel groups r).length ≤ groups.length + 1 := by
  induction groups with
  | nil => simp [insertRel]
  | cons p ps ih =>
    cases h : samePair p.key (nodePairKey r) with
    | true => rw [insertRel_cons_pos p ps r h]; simp
    | false =>
      rw [insertRel_cons_neg p ps r h]
      simp only [List.length_cons]
      omega

/-- Folding a relationship list into groups yields at most one group per
input relationship beyond the initial groups. -/
lemma foldl_insertRel_length_le (l : List RelationshipModel) :
    ∀ init : List NodePair,
      (l.foldl insertRel init).length ≤ init.length + l.length := by
  induction l with
  | nil => intro init; simp
  | cons r rest ih =>
    intro init
    have h1 : (List.foldl insertRel init (r :: rest)).length
        ≤ (insertRel init r).length + rest.length := ih (insertRel init r)
    have h2 := insertRel_length_le init r
    simp only [List.length_cons]
    omega

/-- Inserting a relationship drawn from `src` preserves the group
invariant: every group is nonempty, all of its members come from `src` and
all of its members share the group's unordered endpoint pair. -/
lemma insertRel_invariant (src : List RelationshipModel)
    (groups : List NodePair) (r : RelationshipModel)
    (hg : ∀ p ∈ groups, p.relationships ≠ [] ∧
      ∀ q ∈ p.relationships, q ∈ src ∧ samePair p.key (nodePairKey q) = true)
    (hr : r ∈ src) :
    ∀ p ∈ insertRel groups r, p.relationships ≠ [] ∧
      ∀ q ∈ p.relationships, q ∈ src ∧ samePair p.key (nodePairKey q) = true := by
  induction groups with
  | nil =>
    intro p hp
    simp only [insertRel, List.mem_singleton] at hp
    subst hp
    refine ⟨by simp, ?_⟩
    intro q hq
    simp only [List.mem_singleton] at hq
    subst hq
    exact ⟨hr, by simp [samePair]⟩
  | cons p0 ps ih =>
    intro p hp
    cases h : samePair p0.key (nodePairKey r) with
    | true =>
      rw [insertRel_cons_pos p0 ps r h] at hp
      rcases List.mem_cons.mp hp with h1 | h1
      · subst h1
        have h0 := hg p0 (List.mem_cons_self p0 ps)
        refine ⟨by simp, ?_⟩
        intro q hq
        rcases List.mem_append.mp hq with h2 | h2
        · exact h0.2 q h2
        · simp only [List.mem_singleton] at h2
          subst h2
          exact ⟨hr, h⟩
      · exact hg p (List.mem_cons_of_mem p0 h1)
    | false =>
      rw [insertRel_cons_neg p0 ps r h] at hp
      rcases List.mem_cons.mp hp with h1 | h1
      · subst h1
        exact hg p (List.mem_cons_self p ps)
      · exact ih (fun q hq => hg q (List.mem_cons_of_mem p0 hq)) p h1

/-- The group invariant holds of the grouping of any relationship list. -/
lemma foldl_insertRel_invariant (src : List RelationshipModel) :
    ∀ (l : List RelationshipModel) (init : List NodePair),
      (∀ q ∈ l, q ∈ src) →
      (∀ p ∈ init, p.relationships ≠ [] ∧
        ∀ q ∈ p.relationships, q ∈ src ∧ samePair p.key (nodePairKey q) = true) →
      ∀ p ∈ l.foldl insertRel init, p.relationships ≠ [] ∧
        ∀ q ∈ p.relationships, q ∈ src ∧ samePair p.key (nodePairKey q) = true := by
  intro l
  induction l with
  | nil => intro init _ hinit; exact hinit
  | cons r rest ih =>
    intro init hl hinit
    exact ih (insertRel init r)
      (fun q hq => hl q (List.mem_cons_of_mem r hq))
      (insertRel_invariant src init r hinit (hl r (List.mem_cons_self r rest)))

/-- Any key of the group list after an insertion is either a prior key or
the key of the inserted relationship. -/
lemma insertRel_keys_subset (groups : List NodePair) (r : RelationshipModel) :
    ∀ k ∈ (insertRel groups r).map NodePair.key,
      k ∈ groups.map NodePair.key ∨ k = nodePairKey r := by
  induction groups with
  | nil => intro k hk; simp only [insertRel, List.map_cons, List.map_nil,
      List.mem_singleton] at hk; exact Or.inr hk
  | cons p0 ps ih =>
    intro k hk
    cases h : samePair p0.key (nodePairKey r) with
    | true =>
      rw [insertRel_cons_pos p0 ps r h] at hk
      simp only [List.map_cons, List.mem_cons] at hk ⊢
      rcases hk with h1 | h1
      · exact Or.inl (Or.inl h1)
      · exact Or.inl (Or.inr h1)
    | false =>
      rw [insertRel_cons_neg p0 ps r h] at hk
      simp only [List.map_cons, List.mem_cons] at hk ⊢
      rcases hk with h1 | h1
      · exact Or.inl (Or.inl h1)
      · rcases ih k h1 with h2 | h2
        · exact Or.inl (Or.inr h2)
        · exact Or.inr h2

/-- Insertion preserves pairwise distinctness of the groups' unordered
endpoint pairs. -/
lemma insertRel_pairwise (groups : List NodePair) (r : RelationshipModel)
    (h : (groups.map NodePair.key).Pairwise fun a b => samePair a b = false) :
    ((insertRel groups r).map NodePair.key).Pairwise
      fun a b => samePair a b = false := by
  induction groups with
  | nil => simp [insertRel]
  | cons p0 ps ih =>
    simp only [List.map_cons, List.pairwise_cons] at h
    cases hm : samePair p0.key (nodePairKey r) with
    | true =>
      rw [insertRel_cons_pos p0 ps r hm]
      simp only [List.map_cons, List.pairwise_cons]
      exact ⟨h.1, h.2⟩
    | false =>
      rw [insertRel_cons_neg p0 ps r hm]
      simp only [List.map_cons, List.pairwise_cons]
      refine ⟨?_, ih h.2⟩
      intro k hk
      rcases insertRel_keys_subset ps r k hk with h1 | h1
      · exact h.1 k h1
      · subst h1
        exact hm

/-- C1: for every graph, the relationship list handed to the link force by
`updateRelationships` has exactly one representative per distinct unordered
endpoint pair: its length equals the number of groups reported by the
pair-grouping accessor, those groups' endpoint pairs are pairwise distinct,
the length never exceeds the total relationship count, and it is 0 when the
graph has no relationships. -/
theorem oneRelationshipPerPair_length (g : GraphModel) :
    (oneRelationshipPerPairOfNodes g).length = g.groupedRelationships.length ∧
    ((g.groupedRelationships.map NodePair.key).Pairwise
      fun a b => samePair a b = false) ∧
    (oneRelationshipPerPairOfNodes g).length ≤ g.relationships.length ∧
    (g.relationships = [] → oneRelationshipPerPairOfNodes g = []) := by
  refine ⟨List.length_map _ _, ?_, ?_, ?_⟩
  · have : ∀ (l : List RelationshipModel) (init : List NodePair),
        (init.map NodePair.key).Pairwise (fun a b => samePair a b = false) →
        ((l.foldl insertRel init).map NodePair.key).Pairwise
          (fun a b => samePair a b = false) := by
      intro l
      induction l with
      | nil => intro init h; exact h
      | cons r rest ih =>
        intro init h
        exact ih (insertRel init r) (insertRel_pairwise init r h)
    exact this g.validRelationships [] (by simp)
  · calc (oneRelationshipPerPairOfNodes g).length
        = g.groupedRelationships.length := List.length_map _ _
      _ ≤ 0 + g.validRelationships.length :=
          foldl_insertRel_length_le g.validRelationships []
      _ ≤ g.relationships.length := by
          have := List.length_filter_le (hasEndpoints g) g.relationships
          simpa [GraphModel.validRelationships] using this
  · intro h
    simp [oneRelationshipPerPairOfNodes, GraphModel.groupedRelationships,
      GraphModel.validRelationships, h]

/-- Witness for C1 at the empty graph: with no relationships the link-force
input is empty, hence also no longer than the relationship list. -/
theorem oneRelationshipPerPair_length_witness :
    oneRelationshipPerPairOfNodes gEmpty = [] ∧
    (oneRelationshipPerPairOfNodes gEmpty).length ≤ gEmpty.relationships.length :=
  ⟨(oneRelationshipPerPair_length gEmpty).2.2.2 rfl,
    (oneRelationshipPerPair_length gEmpty).2.2.1⟩

/-- C2: any relationship handed to the link force has both of its endpoint
ids present in the graph's current node set — a relationship referencing a
missing node id is excluded from the link force's input, so it never
reaches the layout engine (and the computation is total, so it cannot
crash the layout). -/
theorem linkInput_endpoints_exist (g : GraphModel) (r : RelationshipModel)
    (hr : r ∈ oneRelationshipPerPairOfNodes g) :
    hasEndpoints g r = true := by
  simp only [oneRelationshipPerPairOfNodes, List.mem_map] at hr
  obtain ⟨p, hp, hhead⟩ := hr
  have hinv := foldl_insertRel_invariant g.validRelationships
    g.validRelationships [] (fun q hq => hq) (by simp) p hp
  have hmem : p.relationships.headI ∈ p.relationships :=
    headI_mem_of_ne_nil hinv.1
  have hvalid : r ∈ g.validRelationships := hhead ▸ (hinv.2 _ hmem).1
  exact (List.mem_filter.mp hvalid).2

/-- Witness for C2: the single link-force input relationship of the
two-node example graph has both endpoints present. -/
theorem linkInput_endpoints_exist_witness : hasEndpoints gPair rPair = true :=
  linkInput_endpoints_exist gPair rPair (by decide)

/-
  Helper lemmas about the engine's step primitives.
-/

/-- One integration step leaves the driver flag unchanged. -/
lemma stepTick_running (s : SimState) : (stepTick s).running = s.running := rfl

/-- `tick(n)` leaves the driver flag unchanged. -/
lemma tickN_running (n : ℕ) : ∀ s : SimState, (tickN n s).running = s.running := by
  induction n with
  | zero => intro s; rfl
  | succ n ih => intro s; exact ih (stepTick s)

/-- `tick(n)` advances the step counter by exactly `n`. -/
lemma tickN_tickCount (n : ℕ) :
    ∀ s : SimState, (tickN n s).tickCount = s.tickCount + n := by
  induction n with
  | zero => intro s; rfl
  | succ n ih =>
    intro s
    have h := ih (stepTick s)
    show (tickN n (stepTick s)).tickCount = s.tickCount + (n + 1)
    rw [h]
    show s.tickCount + 1 + n = s.tickCount + (n + 1)
    omega

/-- C3: `precompute()` halts the automatic per-frame driver, advances the
simulation by exactly `PRECOMPUTED_TICKS` steps synchronously within the
single call, invokes the render callback exactly once, and leaves the
automatic driver stopped. -/
theorem precompute_runs_ticks_then_renders_once (fs : ForceSimState) :
    (ForceSimulation.precompute fs).sim.tickCount
      = fs.sim.tickCount + PRECOMPUTED_TICKS ∧
    (ForceSimulation.precompute fs).renderCount = fs.renderCount + 1 ∧
    (ForceSimulation.precompute fs).sim.running = false := by
  refine ⟨?_, rfl, ?_⟩
  · exact tickN_tickCount PRECOMPUTED_TICKS { fs.sim with running := false }
  · exact tickN_running PRECOMPUTED_TICKS { fs.sim with running := false }

/-- C6: every `restart()` call resets alpha to `DEFAULT_ALPHA` and the
alpha floor to `DEFAULT_ALPHA_MIN` and resumes the automatic per-frame
driver, whatever the prior state was. -/
theorem restart_resets_alpha_and_resumes (fs : ForceSimState) :
    (ForceSimulation.restart fs).sim.alpha = DEFAULT_ALPHA ∧
    (ForceSimulation.restart fs).sim.alphaMin = DEFAULT_ALPHA_MIN ∧
    (ForceSimulation.restart fs).sim.running = true :=
  ⟨rfl, rfl, rfl⟩

/-- The end handler never touches the render counter. -/
lemma dispatchEnd_renderCount (fs : ForceSimState) :
    (dispatchEnd fs).renderCount = fs.renderCount := by
  unfold dispatchEnd
  split
  · rfl
  · rfl

/-- The convergence check never touches the render counter. -/
lemma dispatchMaybeEnd_renderCount (fs : ForceSimState) :
    (dispatchMaybeEnd fs).renderCount = fs.renderCount := by
  unfold dispatchMaybeEnd
  split
  · rw [dispatchEnd_renderCount]
  · rfl

/-- C9: during automatic animation, the controller's registered tick
handler advances the simulation by exactly `TICKS_PER_RENDER` sub-steps and
then invokes the render callback once, so each frame of the automatic
driver invokes the render callback exactly once. -/
theorem tick_handler_substeps_then_one_render (fs : ForceSimState) :
    (ForceSimulation.onTick fs).sim.tickCount
      = fs.sim.tickCount + TICKS_PER_RENDER ∧
    (ForceSimulation.onTick fs).renderCount = fs.renderCount + 1 ∧
    (frameStep fs).renderCount = fs.renderCount + 1 := by
  refine ⟨tickN_tickCount TICKS_PER_RENDER fs.sim, rfl, ?_⟩
  show (dispatchMaybeEnd
      (ForceSimulation.onTick { fs with sim := stepTick fs.sim })).renderCount
    = fs.renderCount + 1
  rw [dispatchMaybeEnd_renderCount]
  rfl

/-
  Helper lemmas about the name-keyed force registry.
-/

/-- Installing a force under a name already present replaces it in place and
leaves the registry's name list unchanged. -/
lemma keys_setForceList_of_mem (l : List (String × Force)) (name : String)
    (f : Force) (h : name ∈ l.map Prod.fst) :
    (setForceList l name f).map Prod.fst = l.map Prod.fst := by
  induction l with
  | nil => simp at h
  | cons kv rest ih =>
    obtain ⟨k, v⟩ := kv
    by_cases hk : k = name
    · simp [setForceList, hk]
    · have h2 : name ∈ rest.map Prod.fst := by
        simp only [List.map_cons, List.mem_cons] at h
        rcases h with h1 | h1
        · exact absurd h1.symm hk
        · exact h1
      simp [setForceList, hk, ih h2]

/-- After installing a force, its name is in the registry. -/
lemma mem_keys_setForceList (l : List (String × Force)) (name : String)
    (f : Force) : name ∈ (setForceList l name f).map Prod.fst := by
  induction l with
  | nil => simp [setForceList]
  | cons kv rest ih =>
    obtain ⟨k, v⟩ := kv
    by_cases hk : k = name
    · simp [setForceList, hk]
    · simp only [setForceList, hk, if_false, List.map_cons, List.mem_cons]
      exact Or.inr ih

/-- Looking up a name right after installing a force under it yields that
force. -/
lemma findForce_setForceList_self (l : List (String × Force)) (name : String)
    (f : Force) : findForce name (setForceList l name f) = some f := by
  induction l with
  | nil => simp [setForceList, findForce]
  | cons kv rest ih =>
    obtain ⟨k, v⟩ := kv
    by_cases hk : k = name
    · simp [setForceList, hk, findForce]
    · simp [setForceList, hk, findForce, ih]

/-- Installing a force under a name leaves every entry under another name
untouched (value and relative order alike). -/
lemma filter_setForceList (l : List (String × Force)) (name : String)
    (f : Force) :
    (setForceList l name f).filter (fun p => p.1 != name)
      = l.filter (fun p => p.1 != name) := by
  induction l with
  | nil => simp [setForceList]
  | cons kv rest ih =>
    obtain ⟨k, v⟩ := kv
    by_cases hk : k = name
    · subst hk
      simp [setForceList, List.filter_cons]
    · simp only [setForceList, hk, if_false, List.filter_cons]
      have hb : (k != name) = true := by simp [bne_iff_ne, hk]
      simp [hb, ih]

/-- C7: calling `updateNodes` twice in a row with the same graph leaves the
engine's node list (hence the node count) exactly as after the first call
and does not duplicate any force: the registry's name list is unchanged by
the second call, and the single entry under 'collide' is the configured
collision force. -/
theorem updateNodes_idempotent (g : GraphModel) (fs : ForceSimState) :
    (ForceSimulation.updateNodes g (ForceSimulation.updateNodes g fs)).sim.nodes
      = (ForceSimulation.updateNodes g fs).sim.nodes ∧
    (ForceSimulation.updateNodes g (ForceSimulation.updateNodes g fs)).sim.nodes.length
      = (ForceSimulation.updateNodes g fs).sim.nodes.length ∧
    (ForceSimulation.updateNodes g (ForceSimulation.updateNodes g fs)).sim.forces.map Prod.fst
      = (ForceSimulation.updateNodes g fs).sim.forces.map Prod.fst ∧
    findForce "collide" (ForceSimulation.updateNodes g fs).sim.forces
      = some (Force.collide FORCE_COLLIDE_RADIUS) := by
  refine ⟨rfl, rfl, ?_, ?_⟩
  · show (setForceList
        (setForceList fs.sim.forces "collide" (Force.collide FORCE_COLLIDE_RADIUS))
        "collide" (Force.collide FORCE_COLLIDE_RADIUS)).map Prod.fst
      = (setForceList fs.sim.forces "collide"
          (Force.collide FORCE_COLLIDE_RADIUS)).map Prod.fst
    exact keys_setForceList_of_mem _ _ _ (mem_keys_setForceList _ _ _)
  · exact findForce_setForceList_self _ _ _

/-- C8: `updateRelationships` only installs/replaces the force named
'link': the node list (positions and velocities included), alpha, the alpha
floor, the alpha target, the decay factors, the step counter, the driver
flag, the render counter, the end-callback state and every force registered
under any other name are all unchanged, and the entry under 'link' becomes
the link force over the deduplicated relationship list. -/
theorem updateRelationships_only_link (g : GraphModel) (fs : ForceSimState) :
    (ForceSimulation.updateRelationships g fs).sim.nodes = fs.sim.nodes ∧
    (ForceSimulation.updateRelationships g fs).sim.alpha = fs.sim.alpha ∧
    (ForceSimulation.updateRelationships g fs).sim.alphaMin = fs.sim.alphaMin ∧
    (ForceSimulation.updateRelationships g fs).sim.alphaTarget = fs.sim.alphaTarget ∧
    (ForceSimulation.updateRelationships g fs).sim.alphaDecay = fs.sim.alphaDecay ∧
    (ForceSimulation.updateRelationships g fs).sim.velocityDecay = fs.sim.velocityDecay ∧
    (ForceSimulation.updateRelationships g fs).sim.tickCount = fs.sim.tickCount ∧
    (ForceSimulation.updateRelationships g fs).sim.running = fs.sim.running ∧
    (ForceSimulation.updateRelationships g fs).renderCount = fs.renderCount ∧
    (ForceSimulation.updateRelationships g fs).endCbRegistered = fs.endCbRegistered ∧
    (ForceSimulation.updateRelationships g fs).endCbFired = fs.endCbFired ∧
    (ForceSimulation.updateRelationships g fs).sim.forces.filter (fun p => p.1 != "link")
      = fs.sim.forces.filter (fun p => p.1 != "link") ∧
    findForce "link" (ForceSimulation.updateRelationships g fs).sim.forces
      = some (Force.link (oneRelationshipPerPairOfNodes g) FORCE_LINK_DISTANCE) := by
  refine ⟨rfl, rfl, rfl, rfl, rfl, rfl, rfl, rfl, rfl, rfl, rfl, ?_, ?_⟩
  · exact filter_setForceList _ _ _
  · exact findForce_setForceList_self _ _ _

/-- Data-changing calls never invoke the render callback and never start
the automatic driver. -/
lemma applyOps_render_running : ∀ (ops : List UpdateOp) (fs : ForceSimState),
    (applyOps ops fs).renderCount = fs.renderCount ∧
    (applyOps ops fs).sim.running = fs.sim.running := by
  intro ops
  induction ops with
  | nil => intro fs; exact ⟨rfl, rfl⟩
  | cons op rest ih =>
    intro fs
    cases op with
    | nodes g => exact ih (ForceSimulation.updateNodes g fs)
    | relationships g => exact ih (ForceSimulation.updateRelationships g fs)

/-- C10: a freshly constructed ForceSimulation is stopped, its render
callback has never been invoked — and stays uninvoked, with the driver
still stopped, under any sequence of `updateNodes` / `updateRelationships`
calls, i.e. until `restart()` or `precompute()` — and its force registry
holds exactly the 'charge', 'centerX' and 'centerY' forces with their
configured strengths; 'collide' appears (as the configured collision force)
only after the first `updateNodes` call and 'link' (as the link force over
the deduplicated list) only after the first `updateRelationships` call. -/
theorem fresh_simulation_initial_state :
    ForceSimulation.new.sim.running = false ∧
    ForceSimulation.new.renderCount = 0 ∧
    ForceSimulation.new.sim.forces
      = [("charge", Force.manyBody FORCE_CHARGE),
         ("centerX", Force.x 0 FORCE_CENTER_X),
         ("centerY", Force.y 0 FORCE_CENTER_Y)] ∧
    findForce "collide" ForceSimulation.new.sim.forces = none ∧
    findForce "link" ForceSimulation.new.sim.forces = none ∧
    (∀ g : GraphModel,
      findForce "collide"
          (ForceSimulation.updateNodes g ForceSimulation.new).sim.forces
        = some (Force.collide FORCE_COLLIDE_RADIUS)) ∧
    (∀ g : GraphModel,
      findForce "link"
          (ForceSimulation.updateRelationships g ForceSimulation.new).sim.forces
        = some (Force.link (oneRelationshipPerPairOfNodes g) FORCE_LINK_DISTANCE)) ∧
    (∀ ops : List UpdateOp,
      (applyOps ops ForceSimulation.new).renderCount = 0 ∧
      (applyOps ops ForceSimulation.new).sim.running = false) := by
  refine ⟨rfl, rfl, rfl, by decide, by decide, ?_, ?_, ?_⟩
  · intro g
    exact findForce_setForceList_self _ _ _
  · intro g
    exact findForce_setForceList_self _ _ _
  · intro ops
    exact applyOps_render_running ops ForceSimulation.new

/-
  Helper lemmas about the automatic per-frame driver.
-/

/-- With the driver flag down no further frame runs. -/
lemma runFrames_stopped (n : ℕ) (fs : ForceSimState)
    (h : fs.sim.running = false) : runFrames n fs = fs := by
  cases n with
  | zero => rfl
  | succ n => simp [runFrames, h]

/-- A frame that does not cross the convergence floor changes neither the
end-callback state nor the driver flag. -/
lemma frameStep_keeps (fs : ForceSimState)
    (h : ¬ (tickN TICKS_PER_RENDER (stepTick fs.sim)).alpha
        < (tickN TICKS_PER_RENDER (stepTick fs.sim)).alphaMin) :
    (frameStep fs).endCbRegistered = fs.endCbRegistered ∧
    (frameStep fs).endCbFired = fs.endCbFired ∧
    (frameStep fs).sim.running = fs.sim.running := by
  unfold frameStep ForceSimulation.onTick dispatchMaybeEnd
  simp only []
  rw [if_neg h]
  exact ⟨rfl, rfl, (tickN_running TICKS_PER_RENDER (stepTick fs.sim)).trans rfl⟩

/-- A frame that crosses the convergence floor with a registered
end-simulation callback stops the driver, fires the callback once and
clears it. -/
lemma frameStep_fires (fs : ForceSimState)
    (h : (tickN TICKS_PER_RENDER (stepTick fs.sim)).alpha
        < (tickN TICKS_PER_RENDER (stepTick fs.sim)).alphaMin)
    (hreg : fs.endCbRegistered = true) :
    (frameStep fs).endCbRegistered = false ∧
    (frameStep fs).endCbFired = fs.endCbFired + 1 ∧
    (frameStep fs).sim.running = false := by
  unfold frameStep ForceSimulation.onTick dispatchMaybeEnd dispatchEnd
  simp only []
  rw [if_pos h]
  simp [hreg]

/-- While a registered end callback is in place, a run of the automatic
driver either has not converged yet (callback still registered, never
fired, driver state as before) or has converged (driver stopped, callback
fired exactly once and cleared). -/
lemma runFrames_end_invariant (n : ℕ) : ∀ fs : ForceSimState,
    fs.endCbRegistered = true →
    ((runFrames n fs).endCbRegistered = true ∧
     (runFrames n fs).endCbFired = fs.endCbFired ∧
     (runFrames n fs).sim.running = fs.sim.running)
    ∨ ((runFrames n fs).endCbRegistered = false ∧
       (runFrames n fs).endCbFired = fs.endCbFired + 1 ∧
       (runFrames n fs).sim.running = false) := by
  induction n with
  | zero => intro fs h; exact Or.inl ⟨h, rfl, rfl⟩
  | succ n ih =>
    intro fs h
    cases hrun : fs.sim.running with
    | false =>
      have he : runFrames (n + 1) fs = fs := by simp [runFrames, hrun]
      rw [he]
      exact Or.inl ⟨h, rfl, hrun⟩
    | true =>
      have he : runFrames (n + 1) fs = runFrames n (frameStep fs) := by
        simp [runFrames, hrun]
      rw [he]
      by_cases hc : (tickN TICKS_PER_RENDER (stepTick fs.sim)).alpha
          < (tickN TICKS_PER_RENDER (stepTick fs.sim)).alphaMin
      · have hf := frameStep_fires fs hc h
        rw [runFrames_stopped n (frameStep fs) hf.2.2]
        exact Or.inr hf
      · have hk := frameStep_keeps fs hc
        rcases ih (frameStep fs) (hk.1.trans h) with ⟨a, b, c⟩ | ⟨a, b, c⟩
        · exact Or.inl ⟨a, b.trans hk.2.1, c.trans (hk.2.2.trans hrun)⟩
        · exact Or.inr ⟨a, by rw [b, hk.2.1], c⟩

/-- C4: for every run of the simulation started by `restart()` with an
end-simulation callback registered, once the run converges (the driver flag
has gone down because alpha fell below the floor) the callback has fired
exactly once and been cleared, and it never fires again over any further
frames unless it is re-registered. -/
theorem end_callback_single_fire (fs : ForceSimState) (n : ℕ)
    (hreg : fs.endCbRegistered = true)
    (hconv : (runFrames n (ForceSimulation.restart fs)).sim.running = false) :
    (runFrames n (ForceSimulation.restart fs)).endCbFired = fs.endCbFired + 1 ∧
    (runFrames n (ForceSimulation.restart fs)).endCbRegistered = false ∧
    ∀ m : ℕ,
      (runFrames m (runFrames n (ForceSimulation.restart fs))).endCbFired
        = fs.endCbFired + 1 := by
  have hreg2 : (ForceSimulation.restart fs).endCbRegistered = true := hreg
  rcases runFrames_end_invariant n (ForceSimulation.restart fs) hreg2 with
    ⟨_, _, c⟩ | ⟨a, b, c⟩
  · rw [hconv] at c
    simp [ForceSimulation.restart] at c
  · refine ⟨b, a, ?_⟩
    intro m
    rw [runFrames_stopped m _ c]
    exact b

/-- Witness for C4: a freshly constructed controller with a registered end
callback, restarted and driven to convergence, has fired the callback
exactly once and cleared it. -/
theorem end_callback_single_fire_witness :
    (runFrames 40 (ForceSimulation.restart fsReg)).endCbFired
      = fsReg.endCbFired + 1 ∧
    (runFrames 40 (ForceSimulation.restart fsReg)).endCbRegistered = false :=
  ⟨(end_callback_single_fire fsReg 40 rfl (by with_unfolding_all decide)).1,
   (end_callback_single_fire fsReg 40 rfl (by with_unfolding_all decide)).2.1⟩

/-
  Helper lemmas about the circular seeding.
-/

/-- Seeding does not add or drop nodes. -/
lemma placeAt_length (total : ℕ) (center : ℝ × ℝ) (radius : ℝ) :
    ∀ (i : ℕ) (l : List NodeModel),
      (placeAt total center radius i l).length = l.length := by
  intro i l
  induction l generalizing i with
  | nil => rfl
  | cons n rest ih => simp [placeAt, ih]

/-- Every node seeded around the origin lands on the circle of the seeding
radius. -/
lemma onCircle_placeAt (total : ℕ) (radius : ℝ) :
    ∀ (i : ℕ) (l : List NodeModel),
      onCircle radius (placeAt total ⟨0, 0⟩ radius i l) := by
  intro i l
  induction l generalizing i with
  | nil => simp [placeAt, onCircle]
  | cons n rest ih =>
    simp only [placeAt, onCircle]
    refine ⟨?_, ih (i + 1)⟩
    have hpc := Real.sin_sq_add_cos_sq (2 * Real.pi * i / total)
    show ((0 : ℝ) + radius * Real.sin (2 * Real.pi * i / total)) ^ 2 +
        ((0 : ℝ) + radius * Real.cos (2 * Real.pi * i / total)) ^ 2
      = radius ^ 2
    linear_combination radius ^ 2 * hpc

/-- C5: for every node count `k`, `updateNodes` seeds exactly the graph's
`k` nodes, all on the circle centered at the origin of radius
`k * LINK_DISTANCE / (2π)`; in particular the radius is 0 for `k = 0`, and
the computation is total (no fault on an empty node set). -/
theorem updateNodes_circle_seed (g : GraphModel) (fs : ForceSimState) :
    seedRadius g.nodes.length
      = (g.nodes.length : ℝ) * LINK_DISTANCE / (2 * Real.pi) ∧
    seedRadius 0 = 0 ∧
    (ForceSimulation.updateNodes g fs).sim.nodes.length = g.nodes.length ∧
    onCircle (seedRadius g.nodes.length)
      (ForceSimulation.updateNodes g fs).sim.nodes := by
  refine ⟨?_, ?_, ?_, ?_⟩
  · rw [seedRadius]
    ring
  · simp [seedRadius]
  · show (circularLayout g.nodes ⟨0, 0⟩ (seedRadius g.nodes.length)).length
      = g.nodes.length
    rw [circularLayout, placeAt_length]
  · show onCircle (seedRadius g.nodes.length)
      (circularLayout g.nodes ⟨0, 0⟩ (seedRadius g.nodes.length))
    rw [circularLayout]
    exact onCircle_placeAt g.nodes.length (seedRadius g.nodes.length) 0 g.nodes
